import Mathlib

/-!
Verification development for rust-maven-proxy.

Shallow embedding of the request-dispatch core in `src/app.rs` and
`src/request.rs`, together with the parts of the `http`/`hyper` library
semantics the core depends on (`PathAndQuery::from_str`, `Uri::from_parts`).
Network and timer effects are made explicit: each dispatched backend call is
represented by its eventual outcome (`Except Elapsed (Except HyperError
Response)`), and the race over `FuturesUnordered` is represented by the list of
those outcomes in completion order.
-/

namespace MavenProxy

/-- HTTP protocol versions (`hyper::http::version::Version`). -/
inductive Version where
  | http09
  | http10
  | http11
  | http2
  | http3
deriving DecidableEq, Repr

/-- HTTP request methods (`hyper::Method`), the standard set. -/
inductive Method where
  | GET
  | HEAD
  | POST
  | PUT
  | DELETE
  | OPTIONS
  | CONNECT
  | PATCH
deriving DecidableEq, Repr

/-- The string form of a method (`Method::as_str`), for the methods used here. -/
def Method.as_str : Method → String
  | .GET => "GET"
  | .HEAD => "HEAD"
  | .POST => "POST"
  | .PUT => "PUT"
  | .DELETE => "DELETE"
  | .OPTIONS => "OPTIONS"
  | .CONNECT => "CONNECT"
  | .PATCH => "PATCH"

/-- A path-and-query is kept as its character list (the `data` of
`http::uri::PathAndQuery`, always ASCII for values the parser accepts). -/
abbrev PQ : Type := List Char

/-- Characters the `http` crate accepts in the path section of a
path-and-query without percent-encoding (`PathAndQuery::from_shared`,
path loop: `0x21 | 0x24..=0x3B | 0x3D | 0x40..=0x5F | 0x61..=0x7A | 0x7C | 0x7E`). -/
def isPathChar (c : Char) : Bool :=
  decide (c.toNat = 0x21 ∨ (0x24 ≤ c.toNat ∧ c.toNat ≤ 0x3B) ∨ c.toNat = 0x3D ∨
    (0x40 ≤ c.toNat ∧ c.toNat ≤ 0x5F) ∨ (0x61 ≤ c.toNat ∧ c.toNat ≤ 0x7A) ∨
    c.toNat = 0x7C ∨ c.toNat = 0x7E)

/-- Characters the `http` crate accepts in the query section
(`PathAndQuery::from_shared`, query loop: `0x21 | 0x24..=0x3B | 0x3D | 0x3F..=0x7E`). -/
def isQueryChar (c : Char) : Bool :=
  decide (c.toNat = 0x21 ∨ (0x24 ≤ c.toNat ∧ c.toNat ≤ 0x3B) ∨ c.toNat = 0x3D ∨
    (0x3F ≤ c.toNat ∧ c.toNat ≤ 0x7E))

/-- Query-section scan of `PathAndQuery::from_shared`: a `'#'` starts a
fragment and truncates the stored data there; an invalid byte rejects. -/
def scanQuery : List Char → Option (List Char)
  | [] => some []
  | c :: rest =>
    if c = '#' then some []
    else if isQueryChar c then (scanQuery rest).map (c :: ·)
    else none

/-- Path-section scan of `PathAndQuery::from_shared`: a `'?'` switches to the
query section, a `'#'` truncates, an invalid byte rejects. -/
def scanPath : List Char → Option (List Char)
  | [] => some []
  | c :: rest =>
    if c = '?' then (scanQuery rest).map (c :: ·)
    else if c = '#' then some []
    else if isPathChar c then (scanPath rest).map (c :: ·)
    else none

/-- Embeds `PathAndQuery::from_str` (via `from_shared`): parse a string into the
stored path-and-query data, or fail on an invalid character. -/
def PathAndQuery.from_str (s : List Char) : Option PQ :=
  scanPath s

/-- A stored path-and-query, as produced by the parser, is a fixed point of
the scan: every char is in the allowed alphabet and no `'#'` occurs. -/
def ValidPQ (s : PQ) : Prop :=
  scanPath s = some s

instance (s : PQ) : Decidable (ValidPQ s) := by
  unfold ValidPQ; infer_instance

/-- Embeds `hyper::Uri` as its three parts, each optional, mirroring `http::uri::Parts`
as exposed by `Uri::scheme`, `Uri::authority` and `Uri::path_and_query`
(the last is `None` exactly for authority-form URIs such as `example.com`). -/
structure Uri where
  scheme : Option String
  authority : Option String
  path_and_query : Option PQ
deriving DecidableEq

/-- Errors of `hyper::http` surfaced through `?` in `app.rs`
(`InvalidUri` / `InvalidUriParts` kinds relevant to this code). -/
inductive HttpError where
  | invalidUriChar
  | schemeMissing
  | authorityMissing
  | pathAndQueryMissing
deriving DecidableEq, Repr

/-- Embeds `Uri::from_parts` (what `Uri::builder().build()` runs): a scheme requires
an authority and a path-and-query; an authority with a path-and-query
requires a scheme. -/
def Uri.from_parts (scheme authority : Option String) (pq : Option PQ) :
    Except HttpError Uri :=
  if scheme.isSome then
    if authority.isNone then .error .authorityMissing
    else if pq.isNone then .error .pathAndQueryMissing
    else .ok ⟨scheme, authority, pq⟩
  else
    if authority.isSome && pq.isSome then .error .schemeMissing
    else .ok ⟨scheme, authority, pq⟩

/-- Embeds `rewrite_uri` from `src/app.rs` (lines 196-216): keep the backend URI's
scheme and authority when present, and set the path-and-query to the parse of
the backend base path concatenated with the incoming GAV path (or to the GAV
path itself when the backend URI has no path-and-query). -/
def rewrite_uri (existing_uri : Uri) (gav : PQ) : Except HttpError Uri :=
  let proxy_path : Except HttpError PQ :=
    match existing_uri.path_and_query with
    | some base_path =>
      match PathAndQuery.from_str (base_path ++ gav) with
      | some combined => .ok combined
      | none => .error .invalidUriChar
    | none => .ok gav
  match proxy_path with
  | .error e => .error e
  | .ok pq => Uri.from_parts existing_uri.scheme existing_uri.authority (some pq)

/-- Embeds `hyper::http::request::Parts` of the inbound request, the fields the core
reads: method, URI, version and headers. -/
structure Parts where
  method : Method
  uri : Uri
  version : Version
  headers : List (String × String)

/-- Inbound `Request<Body>`: its parts plus whether the body stream is already
at its end (`HttpBody::is_end_stream`). -/
structure Request where
  parts : Parts
  body_is_end_stream : Bool

/-- Embeds `Response<Body>` restricted to what the core inspects or constructs:
version, status code, body text and headers. -/
structure Response where
  version : Version
  status : Nat
  body : String
  headers : List (String × String)
deriving DecidableEq

/-- A backend request as assembled in the dispatch loop of `contact_proxies`
(lines 111-117): attributes copied from the inbound parts, the rewritten URI,
and always an empty body. -/
structure BackendRequest where
  method : Method
  version : Version
  headers : List (String × String)
  uri : Uri
deriving DecidableEq

/-- Embeds the `hyper::Request::builder()` state: the fields `copy_attributes` and the
dispatch loop fill in. -/
structure RequestBuilder where
  method : Option Method := none
  version : Option Version := none
  headers : List (String × String) := []
  uri : Option Uri := none

/-- Embeds `copy_attributes` from `src/app.rs` (lines 187-194): set version and method
from the inbound parts and extend the header map with the inbound headers. -/
def copy_attributes (parts : Parts) (request_builder : RequestBuilder) :
    RequestBuilder :=
  { request_builder with
      version := some parts.version
      method := some parts.method
      headers := request_builder.headers ++ parts.headers }

/-- One iteration of the dispatch loop body (lines 111-117): rewrite the URI
(`?` propagates its error), copy attributes, set the URI, give an empty body.
Hyper's builder defaults (`GET`, HTTP/1.1) fill any unset field. -/
def build_backend_request (parts : Parts) (proxy_uri : Uri) (gav : PQ) :
    Except HttpError BackendRequest :=
  match rewrite_uri proxy_uri gav with
  | .error e => .error e
  | .ok backend_uri =>
    let b := copy_attributes parts {}
    let b := { b with uri := some backend_uri }
    .ok ⟨b.method.getD .GET, b.version.getD .http11, b.headers, b.uri.getD backend_uri⟩

/-- The dispatch phase of `contact_proxies` (lines 110-142): build one backend
request per configured repository, in order; the `?` on `rewrite_uri` makes
the first failure abort the whole loop with that error. -/
def build_backend_requests (parts : Parts) (repositories : List Uri) (gav : PQ) :
    Except HttpError (List BackendRequest) :=
  match repositories with
  | [] => .ok []
  | proxy_uri :: rest =>
    match build_backend_request parts proxy_uri gav with
    | .error e => .error e
    | .ok req =>
      match build_backend_requests parts rest gav with
      | .error e => .error e
      | .ok reqs => .ok (req :: reqs)

/-- Embeds `tokio::time::error::Elapsed`: the timeout fired before the response. -/
inductive Elapsed where
  | elapsed
deriving DecidableEq, Repr

/-- Embeds `hyper::Error`: a transport failure while contacting a backend. -/
inductive HyperError where
  | transport
deriving DecidableEq, Repr

/-- The value a single raced future resolves to: the timeout result wrapping
the client result (`timeout(proxy_timeout, client.request(..))`). -/
def BackendOutcome : Type :=
  Except Elapsed (Except HyperError Response)

/-- Embeds `handle_errors` from `src/app.rs` (lines 218-226): log and drop an error,
keep a success. -/
def handle_errors {E R : Type} : Except E R → Option R
  | .error _ => none
  | .ok value => some value

/-- The closure mapped over each raced future (lines 122-140): flatten the two
error layers with `handle_errors`, then keep only responses whose status is
200 or 304 (404 and every other status are filtered out). -/
def classify (result : BackendOutcome) : Option Response :=
  let opt_response : Option Response :=
    ((handle_errors result).map handle_errors).join
  opt_response.filter fun response =>
    match response.status with
    | 200 => true
    | 304 => true
    | 404 => false
    | _ => false

/-- The race loop of `contact_proxies` (lines 143-156) over the classified
outcomes in completion order: the first `some` wins and the rest of the list
is never consulted; if only `none`s arrive the loop falls through. -/
def race : List (Option Response) → Option Response
  | [] => none
  | some response :: _ => some response
  | none :: rest => race rest

/-- The synthesized fallback response of `contact_proxies` (lines 158-161). -/
def not_found_response (version : Version) : Response :=
  { version := version
    status := 404
    body := "No such artifact found in any of the proxy locations"
    headers := [] }

/-- Embeds `contact_proxies` from `src/app.rs` (lines 104-162). `completed` lists the
outcome of each dispatched backend call in completion order (one entry per
repository; `FuturesUnordered` yields them as they finish). A dispatch-phase
error propagates out through `?`; otherwise the first outcome classified as a
response wins and is returned as-is, and exhaustion yields the 404 fallback.
On a win the remaining entries of `completed` are handed to a spawned drain
task and never influence the returned value. -/
def contact_proxies (parts : Parts) (gav : PQ) (repositories : List Uri)
    (completed : List BackendOutcome) : Except HttpError Response :=
  match build_backend_requests parts repositories gav with
  | .error e => .error e
  | .ok _requests =>
    match race (completed.map classify) with
    | some response => .ok response
    | none => .ok (not_found_response parts.version)

/-- Modelled from the spec: the crate version string injected at build time
via `env!("CARGO_PKG_VERSION")`; the manifest is not part of the sources, so
the exact value is unknown and irrelevant to the claims. -/
def PROGRAM_VERSION : String := "0.1.0"

/-- Embeds `homepage_response` from `src/app.rs` (lines 57-65). -/
def homepage_response (version : Version) : Response :=
  { version := version
    status := 200
    body := "A maven repository proxy backed by rust-maven-proxy version " ++ PROGRAM_VERSION
    headers := [] }

/-- Embeds `AllowedMethod` from `src/request.rs`. -/
inductive AllowedMethod where
  | GET
  | HEAD
deriving DecidableEq, Repr

/-- Embeds `ALL_ALLOWED` from `src/request.rs` (line 24). -/
def ALL_ALLOWED : List AllowedMethod := [.GET, .HEAD]

/-- Embeds `impl From<&AllowedMethod> for Method` from `src/request.rs`. -/
def AllowedMethod.toMethod : AllowedMethod → Method
  | .GET => .GET
  | .HEAD => .HEAD

/-- Embeds `AllowedMethod::find_from` from `src/request.rs` (lines 44-50). -/
def AllowedMethod.find_from (method : Method) : Option AllowedMethod :=
  match method with
  | .GET => some .GET
  | .HEAD => some .HEAD
  | _ => none

/-- Embeds `AllowedMethod::value` from `src/request.rs` (lines 52-55). -/
def AllowedMethod.value (m : AllowedMethod) : String :=
  m.toMethod.as_str

/-- Embeds `AllowedMethod::respond_with_405` from `src/request.rs` (lines 60-78): a 405
response carrying one `Allow` header entry per allowed method and the
explanatory message. Header-value parsing of `"GET"`/`"HEAD"` cannot fail, so
the `?`s are dead and the function is total here. -/
def AllowedMethod.respond_with_405 (version : Version) : Response :=
  { version := version
    status := 405
    headers := ALL_ALLOWED.map fun m => ("Allow", m.toMethod.as_str)
    body := "Only " ++ String.intercalate ", " (ALL_ALLOWED.map AllowedMethod.value)
      ++ " requests are allowed to rust-maven-proxy." }

/-- Embeds `handle_request` from `src/app.rs` (lines 67-102): reject disallowed methods
with 405; with no path-and-query or path `/` serve the homepage; serve the
favicon 404; reject non-empty bodies with 400; otherwise contact the proxies.
`repositories` and `completed` stand for `self.repositories` and the eventual
outcomes of the calls `contact_proxies` would dispatch. -/
def handle_request (repositories : List Uri) (completed : List BackendOutcome)
    (original_request : Request) : Except HttpError Response :=
  let allowed_method := AllowedMethod.find_from original_request.parts.method
  if allowed_method.isNone then
    .ok (AllowedMethod.respond_with_405 original_request.parts.version)
  else
    let parts := original_request.parts
    let body := original_request.body_is_end_stream
    match parts.uri.path_and_query with
    | none => .ok (homepage_response parts.version)
    | some gav =>
      if gav = "/".data then
        .ok (homepage_response parts.version)
      else if gav = "/favicon.ico".data then
        .ok { version := parts.version, status := 404, body := "", headers := [] }
      else if !body then
        .ok { version := parts.version, status := 400
              body := "A request must have an empty body", headers := [] }
      else
        contact_proxies parts gav repositories completed

deriving instance DecidableEq for Except

/-- A character acceptable in the path section is acceptable in the query
section, and is neither `'?'` nor `'#'`. -/
theorem isPathChar_facts (c : Char) (h : isPathChar c = true) :
    isQueryChar c = true ∧ c ≠ '?' ∧ c ≠ '#' := by
  refine ⟨?_, ?_, ?_⟩
  · simp only [isPathChar, decide_eq_true_eq] at h
    simp only [isQueryChar, decide_eq_true_eq]
    omega
  · intro hc; subst hc; exact absurd h (by decide)
  · intro hc; subst hc; exact absurd h (by decide)

/-- Inversion of the query-scan fixed point on a cons cell. -/
theorem scanQuery_cons_self (c : Char) (rest : List Char)
    (h : scanQuery (c :: rest) = some (c :: rest)) :
    c ≠ '#' ∧ isQueryChar c = true ∧ scanQuery rest = some rest := by
  by_cases hh : c = '#'
  · subst hh; simp [scanQuery] at h
  · by_cases hq : isQueryChar c
    · refine ⟨hh, hq, ?_⟩
      simp only [scanQuery, if_neg hh, if_pos hq, Option.map_eq_some'] at h
      obtain ⟨a, ha, hcons⟩ := h
      obtain ⟨-, rfl⟩ := List.cons.inj hcons
      exact ha
    · simp [scanQuery, hh, hq] at h

/-- Inversion of the path-scan fixed point on a cons cell. -/
theorem scanPath_cons_self (c : Char) (rest : List Char)
    (h : scanPath (c :: rest) = some (c :: rest)) :
    (c = '?' ∧ scanQuery rest = some rest) ∨
      (isPathChar c = true ∧ scanPath rest = some rest) := by
  by_cases hq : c = '?'
  · left
    refine ⟨hq, ?_⟩
    simp only [scanPath, if_pos hq, Option.map_eq_some'] at h
    obtain ⟨a, ha, hcons⟩ := h
    obtain ⟨-, rfl⟩ := List.cons.inj hcons
    exact ha
  · by_cases hh : c = '#'
    · subst hh; simp [scanPath, hq] at h
    · by_cases hp : isPathChar c
      · right
        refine ⟨hp, ?_⟩
        simp only [scanPath, if_neg hq, if_neg hh, if_pos hp, Option.map_eq_some'] at h
        obtain ⟨a, ha, hcons⟩ := h
        obtain ⟨-, rfl⟩ := List.cons.inj hcons
        exact ha
      · simp [scanPath, hq, hh, hp] at h

/-- The query scan preserves concatenation of its fixed points. -/
theorem scanQuery_append (a b : List Char) (ha : scanQuery a = some a)
    (hb : scanQuery b = some b) : scanQuery (a ++ b) = some (a ++ b) := by
  induction a with
  | nil => simpa using hb
  | cons c rest ih =>
    obtain ⟨hh, hq, hrest⟩ := scanQuery_cons_self c rest ha
    simp only [List.cons_append, scanQuery, if_neg hh, if_pos hq, List.append_eq,
      ih hrest, Option.map_some']

/-- A fixed point of the path scan is a fixed point of the query scan: the
query alphabet contains the path alphabet and also `'?'`. -/
theorem scanQuery_of_scanPath (a : List Char) (ha : scanPath a = some a) :
    scanQuery a = some a := by
  induction a with
  | nil => rfl
  | cons c rest ih =>
    rcases scanPath_cons_self c rest ha with ⟨rfl, hrest⟩ | ⟨hp, hrest⟩
    · have : isQueryChar '?' = true := by decide
      simp [scanQuery, this, hrest]
    · obtain ⟨hq, -, hh⟩ := isPathChar_facts c hp
      simp [scanQuery, hh, hq, ih hrest]

/-- The path scan preserves concatenation of its fixed points: appending one
parsed path-and-query to another yields a string the parser accepts verbatim.
The suffix lands either in the path section (its path characters are valid
there) or after a `'?'` of the prefix, in the query section, whose alphabet
contains everything the suffix may hold. -/
theorem scanPath_append (a b : List Char) (ha : scanPath a = some a)
    (hb : scanPath b = some b) : scanPath (a ++ b) = some (a ++ b) := by
  induction a with
  | nil => simpa using hb
  | cons c rest ih =>
    rcases scanPath_cons_self c rest ha with ⟨rfl, hrest⟩ | ⟨hp, hrest⟩
    · have hq : scanQuery (rest ++ b) = some (rest ++ b) :=
        scanQuery_append rest b hrest (scanQuery_of_scanPath b hb)
      simp [scanPath, hq]
    · obtain ⟨-, hqm, hh⟩ := isPathChar_facts c hp
      simp [scanPath, hqm, hh, hp, ih hrest]

/-- The race yields `none` when every completed outcome was filtered out. -/
theorem race_all_none (l : List (Option Response)) (h : ∀ x ∈ l, x = none) :
    race l = none := by
  induction l with
  | nil => rfl
  | cons x rest ih =>
    have hx := h x (by simp)
    subst hx
    exact ih fun y hy => h y (by simp [hy])

/-- The race returns the first surviving response, whatever follows it. -/
theorem race_first_some (l1 l2 : List (Option Response)) (r : Response)
    (h : ∀ x ∈ l1, x = none) : race (l1 ++ some r :: l2) = some r := by
  induction l1 with
  | nil => rfl
  | cons x rest ih =>
    have hx := h x (by simp)
    subst hx
    exact ih fun y hy => h y (by simp [hy])

/-- A race winner is one of the raced values. -/
theorem race_mem (l : List (Option Response)) (r : Response)
    (h : race l = some r) : some r ∈ l := by
  induction l with
  | nil => simp [race] at h
  | cons x rest ih =>
    match x, h with
    | some response, h => simp [race] at h; simp [h]
    | none, h => exact List.mem_cons_of_mem _ (ih h)

/-- Building the backend requests rewrites exactly per `rewrite_uri`, so a
repository whose rewrite fails makes the whole dispatch loop fail. -/
theorem build_backend_requests_error (parts : Parts) (repositories : List Uri)
    (gav : PQ) (r : Uri) (e : HttpError) (hmem : r ∈ repositories)
    (hfail : rewrite_uri r gav = .error e) :
    ∃ e', build_backend_requests parts repositories gav = .error e' := by
  induction repositories with
  | nil => simp at hmem
  | cons proxy rest ih =>
    rcases List.mem_cons.mp hmem with rfl | hmem'
    · exact ⟨e, by simp [build_backend_requests, build_backend_request, hfail]⟩
    · match hfirst : build_backend_request parts proxy gav with
      | .error e' => exact ⟨e', by simp [build_backend_requests, hfirst]⟩
      | .ok req =>
        obtain ⟨e', he'⟩ := ih hmem'
        exact ⟨e', by simp [build_backend_requests, hfirst, he']⟩

/-- Lemma: `Uri::from_parts` only repackages its arguments when it succeeds. -/
theorem Uri.from_parts_ok (scheme authority : Option String) (pq : Option PQ)
    (u : Uri) (h : Uri.from_parts scheme authority pq = .ok u) :
    u = ⟨scheme, authority, pq⟩ := by
  unfold Uri.from_parts at h
  repeat' split at h
  all_goals cases h
  all_goals rfl

/-- The default backend of the shipped configuration, `https://repo1.maven.org/maven2`. -/
def mavenCentralUri : Uri :=
  ⟨some "https", some "repo1.maven.org", some "/maven2".data⟩

/-- An authority-form URI such as `Uri::from_str("repo.example.org")` yields:
no scheme, no path-and-query. -/
def authorityOnlyUri : Uri :=
  ⟨none, some "repo.example.org", none⟩

/-- A sample artifact path. -/
def gavExample : PQ := "/org/x/lib.pom".data

/-- A sample 200 backend response, spoken over HTTP/1.1 by the backend. -/
def response200 : Response := ⟨.http11, 200, "artifact-bytes", []⟩

/-- A sample 404 backend response. -/
def response404 : Response := ⟨.http11, 404, "", []⟩

/-- A sample backend response with a status outside {200, 304, 404}. -/
def response502 : Response := ⟨.http11, 502, "bad gateway", []⟩

/-- A raced future resolving to the 200 response. -/
def acceptedOutcome200 : BackendOutcome := .ok (.ok response200)

/-- Inbound parts of a GET artifact request over HTTP/1.1. -/
def partsExample : Parts := ⟨.GET, ⟨none, none, some gavExample⟩, .http11, []⟩

/-- The full inbound GET artifact request with an empty body. -/
def getArtifactRequest : Request := ⟨partsExample, true⟩

/-- The backend request the dispatch loop builds for the default backend from
`partsExample` and `gavExample`. -/
def builtRequestExample : BackendRequest :=
  ⟨.GET, .http11, [],
    ⟨some "https", some "repo1.maven.org", some "/maven2/org/x/lib.pom".data⟩⟩

/-- C1 counterexample: with backend list `[https://repo1.maven.org/maven2,
repo.example.org]`, the second backend's URI rewrite fails (authority without
scheme), and `handle_request` returns that error for the whole inbound request
even though the first backend's call resolves to an accepted 200 response —
the `?` on `rewrite_uri` in the dispatch loop aborts everything, contradicting
the claim that the failure is scoped to that one backend. -/
theorem rewrite_failure_aborts_request_cex :
    rewrite_uri authorityOnlyUri gavExample = .error .schemeMissing ∧
    handle_request [mavenCentralUri, authorityOnlyUri] [acceptedOutcome200]
      getArtifactRequest = .error .schemeMissing := by
  decide

/-- C1 amended: if the URI rewrite fails for any configured backend, the
dispatch loop of `contact_proxies` propagates that error through `?`, so the
whole inbound request resolves to an error — no client response is produced
from any backend, accepted or not. -/
theorem rewrite_failure_aborts_request (parts : Parts) (repositories : List Uri)
    (gav : PQ) (completed : List BackendOutcome) (r : Uri) (e : HttpError)
    (hmem : r ∈ repositories) (hfail : rewrite_uri r gav = .error e) :
    ∀ response : Response,
      contact_proxies parts gav repositories completed ≠ .ok response := by
  obtain ⟨e', he'⟩ := build_backend_requests_error parts repositories gav r e hmem hfail
  intro response
  simp [contact_proxies, he']

/-- Witness for the amended C1 at the concrete failing backend. -/
theorem rewrite_failure_aborts_request_witness :
    contact_proxies partsExample gavExample [authorityOnlyUri] [] ≠
      .ok (not_found_response .http11) :=
  rewrite_failure_aborts_request partsExample [authorityOnlyUri] gavExample []
    authorityOnlyUri .schemeMissing (by decide) (by decide) (not_found_response .http11)

/-- C2: once the outcomes preceding some outcome in completion order were all
filtered out and that outcome is classified as an acceptable response, the
dispatcher returns exactly that backend response, and the result is the same
for every possible continuation of the completion order — the remaining
in-flight calls (handed to the spawned drain task in the code) can neither
delay nor alter the already-determined client response. -/
theorem first_accepted_wins_and_rest_drained (parts : Parts) (gav : PQ)
    (repositories : List Uri) (requests : List BackendRequest)
    (pre : List BackendOutcome) (b : BackendOutcome)
    (post post' : List BackendOutcome) (response : Response)
    (hbuild : build_backend_requests parts repositories gav = .ok requests)
    (hpre : ∀ o ∈ pre, classify o = none)
    (hb : classify b = some response) :
    contact_proxies parts gav repositories (pre ++ b :: post) = .ok response ∧
      contact_proxies parts gav repositories (pre ++ b :: post') = .ok response := by
  have key : ∀ post'' : List BackendOutcome,
      contact_proxies parts gav repositories (pre ++ b :: post'') = .ok response := by
    intro post''
    have hmap : (pre ++ b :: post'').map classify =
        pre.map classify ++ some response :: post''.map classify := by
      simp [hb]
    have hall : ∀ x ∈ pre.map classify, x = none := by
      intro x hx
      obtain ⟨o, ho, rfl⟩ := List.mem_map.mp hx
      exact hpre o ho
    simp [contact_proxies, hbuild, hmap, race_first_some _ _ _ hall]
  exact ⟨key post, key post'⟩

/-- Witness for C2: three racing copies of the default backend; a timeout
completes first, then the accepted 200; a transport error or nothing at all
may follow without changing the response. -/
theorem first_accepted_wins_and_rest_drained_witness :
    contact_proxies partsExample gavExample
      [mavenCentralUri, mavenCentralUri, mavenCentralUri]
      ([.error .elapsed] ++ acceptedOutcome200 ::
        [.ok (.error .transport)]) = .ok response200 ∧
    contact_proxies partsExample gavExample
      [mavenCentralUri, mavenCentralUri, mavenCentralUri]
      ([.error .elapsed] ++ acceptedOutcome200 :: []) = .ok response200 :=
  first_accepted_wins_and_rest_drained partsExample gavExample
    [mavenCentralUri, mavenCentralUri, mavenCentralUri]
    [builtRequestExample, builtRequestExample, builtRequestExample]
    [.error .elapsed] acceptedOutcome200 [.ok (.error .transport)] [] response200
    (by decide) (by decide) (by decide)

/-- C4: when `rewrite_uri` succeeds on a backend base URI whose stored
path-and-query (if any) is a parser fixed point and an artifact path that is a
parser fixed point, the result keeps the backend's scheme and authority
verbatim and its path-and-query is the character-for-character concatenation
of the backend's (possibly absent, hence empty) path-and-query with the
artifact path. -/
theorem rewrite_uri_preserves_scheme_authority_concat (B : Uri) (P : PQ)
    (u : Uri) (hB : ∀ bp, B.path_and_query = some bp → ValidPQ bp)
    (hP : ValidPQ P) (h : rewrite_uri B P = .ok u) :
    u.scheme = B.scheme ∧ u.authority = B.authority ∧
      u.path_and_query = some ((B.path_and_query.getD []) ++ P) := by
  unfold rewrite_uri at h
  cases hpq : B.path_and_query with
  | none =>
    rw [hpq] at h
    simp only [] at h
    have := Uri.from_parts_ok _ _ _ _ h
    subst this
    simp [hpq]
  | some bp =>
    have hv : ValidPQ bp := hB bp hpq
    have hcat : scanPath (bp ++ P) = some (bp ++ P) := scanPath_append bp P hv hP
    rw [hpq] at h
    simp only [PathAndQuery.from_str, hcat] at h
    have := Uri.from_parts_ok _ _ _ _ h
    subst this
    simp [hpq]

/-- Witness for C4 at the default backend and the sample artifact path. -/
theorem rewrite_uri_preserves_scheme_authority_concat_witness :
    (⟨some "https", some "repo1.maven.org", some "/maven2/org/x/lib.pom".data⟩ :
        Uri).scheme = mavenCentralUri.scheme ∧
    (⟨some "https", some "repo1.maven.org", some "/maven2/org/x/lib.pom".data⟩ :
        Uri).authority = mavenCentralUri.authority ∧
    (⟨some "https", some "repo1.maven.org", some "/maven2/org/x/lib.pom".data⟩ :
        Uri).path_and_query =
      some ((mavenCentralUri.path_and_query.getD []) ++ gavExample) :=
  rewrite_uri_preserves_scheme_authority_concat mavenCentralUri gavExample
    ⟨some "https", some "repo1.maven.org", some "/maven2/org/x/lib.pom".data⟩
    (fun bp h => by cases Option.some.inj h; decide) (by decide) (by decide)

/-- C7: when the dispatch phase succeeds and every completed outcome is
filtered out (404, other status, transport error or timeout), the dispatcher
falls through to the fixed 404 response — and this holds for every completion
order, since the completion order is universally quantified. -/
theorem exhausted_yields_not_found (parts : Parts) (gav : PQ)
    (repositories : List Uri) (requests : List BackendRequest)
    (completed : List BackendOutcome)
    (hbuild : build_backend_requests parts repositories gav = .ok requests)
    (hall : ∀ b ∈ completed, classify b = none) :
    contact_proxies parts gav repositories completed =
      .ok (not_found_response parts.version) ∧
    (not_found_response parts.version).status = 404 ∧
    (not_found_response parts.version).body =
      "No such artifact found in any of the proxy locations" := by
  refine ⟨?_, rfl, rfl⟩
  have hrace : race (completed.map classify) = none := by
    refine race_all_none _ ?_
    intro x hx
    obtain ⟨o, ho, rfl⟩ := List.mem_map.mp hx
    exact hall o ho
  simp [contact_proxies, hbuild, hrace]

/-- Witness for C7: two backends, one answering 404 and one timing out. -/
theorem exhausted_yields_not_found_witness :
    contact_proxies partsExample gavExample [mavenCentralUri, mavenCentralUri]
      [.ok (.ok response404), .error .elapsed] =
      .ok (not_found_response partsExample.version) ∧
    (not_found_response partsExample.version).status = 404 ∧
    (not_found_response partsExample.version).body =
      "No such artifact found in any of the proxy locations" :=
  exhausted_yields_not_found partsExample gavExample
    [mavenCentralUri, mavenCentralUri] [builtRequestExample, builtRequestExample]
    [.ok (.ok response404), .error .elapsed] (by decide) (by decide)

/-- C8: with an empty repository list the dispatch phase builds no backend
request at all, and the race over the empty `FuturesUnordered` immediately
falls through to the fixed 404 response. -/
theorem empty_repositories_yields_not_found (parts : Parts) (gav : PQ) :
    build_backend_requests parts [] gav = .ok [] ∧
    contact_proxies parts gav [] [] = .ok (not_found_response parts.version) ∧
    (not_found_response parts.version).status = 404 :=
  ⟨rfl, rfl, rfl⟩

/-- The status filter of the raced closure accepts exactly 200 and 304. -/
theorem status_filter_iff (s : Nat) :
    (match s with
      | 200 => true
      | 304 => true
      | 404 => false
      | _ => false) = true ↔ (s = 200 ∨ s = 304) := by
  split
  · simp
  · simp
  · simp
  · rename_i h1 h2 h3
    simp only [Bool.false_eq_true, false_iff]
    rintro (rfl | rfl)
    · exact h1 rfl
    · exact h2 rfl

/-- C3: a raced outcome is classified as an acceptable response exactly when
it is a received response with status 200 or 304, carried through unchanged;
any 404, any other status, a transport error or a timeout classifies to
`none`, and a `none` never ends the race — the loop just continues with the
remaining outcomes. -/
theorem classify_accepted_iff :
    (∀ (b : BackendOutcome) (r : Response),
        classify b = some r ↔
          b = .ok (.ok r) ∧ (r.status = 200 ∨ r.status = 304)) ∧
    (∀ (b : BackendOutcome) (rest : List (Option Response)),
        classify b = none → race (classify b :: rest) = race rest) := by
  constructor
  · intro b r
    match b with
    | .error e => simp [classify, handle_errors]
    | .ok (.error e) =>
      have hc : classify (.ok (.error e)) = none := rfl
      rw [hc]
      constructor
      · intro h
        exact absurd h (by simp)
      · rintro ⟨heq, -⟩
        exact absurd (Except.ok.inj heq) (by simp)
    | .ok (.ok resp) =>
      have hc : classify (.ok (.ok resp)) =
          if (match resp.status with
            | 200 => true
            | 304 => true
            | 404 => false
            | _ => false) = true then some resp else none := rfl
      rw [hc]
      by_cases hs : resp.status = 200 ∨ resp.status = 304
      · rw [if_pos ((status_filter_iff resp.status).mpr hs)]
        constructor
        · intro h
          have hr : resp = r := Option.some.inj h
          subst hr
          exact ⟨rfl, hs⟩
        · rintro ⟨heq, -⟩
          have hr : resp = r := Except.ok.inj (Except.ok.inj heq)
          rw [hr]
      · rw [if_neg fun hh => hs ((status_filter_iff resp.status).mp hh)]
        constructor
        · intro h
          exact absurd h (by simp)
        · rintro ⟨heq, hsr⟩
          have hr : resp = r := Except.ok.inj (Except.ok.inj heq)
          subst hr
          exact absurd hsr hs
  · intro b rest h
    rw [h]
    rfl

/-- Witness for C3: a 502 backend response classifies to `none` and leaves the
race to the remaining outcomes. -/
theorem classify_accepted_iff_witness :
    race (classify (.ok (.ok response502)) :: [some response200]) =
      race [some response200] :=
  classify_accepted_iff.2 (.ok (.ok response502)) [some response200] (by decide)

/-- An origin-form URI whose path is just `/`. -/
def slashUri : Uri := ⟨none, none, some "/".data⟩

/-- A POST to `/` with an empty body. -/
def postSlashRequest : Request := ⟨⟨.POST, slashUri, .http11, []⟩, true⟩

/-- A GET to `/` with an empty body. -/
def getSlashRequest : Request := ⟨⟨.GET, slashUri, .http11, []⟩, true⟩

/-- C5 counterexample: the method check runs before the path check, so a POST
to `/` is answered 405, not the claimed 200 — the homepage and favicon
behaviour is not independent of the request's method. -/
theorem root_path_post_gets_405_cex :
    handle_request [] [] postSlashRequest =
      .ok (AllowedMethod.respond_with_405 .http11) ∧
    (AllowedMethod.respond_with_405 .http11).status = 405 ∧
    ¬ (AllowedMethod.respond_with_405 .http11).status = 200 := by
  decide

/-- C5 amended: for inbound requests whose method is GET or HEAD, path `/`
yields the 200 homepage response with the informational text naming the proxy
and its version string, and path `/favicon.ico` yields a 404 with an empty
body. -/
theorem special_paths_for_allowed_methods (repositories : List Uri)
    (completed : List BackendOutcome) (req : Request)
    (hm : (AllowedMethod.find_from req.parts.method).isSome = true) :
    (req.parts.uri.path_and_query = some "/".data →
      handle_request repositories completed req =
        .ok (homepage_response req.parts.version) ∧
      (homepage_response req.parts.version).status = 200 ∧
      (homepage_response req.parts.version).body =
        "A maven repository proxy backed by rust-maven-proxy version " ++
          PROGRAM_VERSION) ∧
    (req.parts.uri.path_and_query = some "/favicon.ico".data →
      handle_request repositories completed req =
        .ok { version := req.parts.version, status := 404, body := "",
              headers := [] }) := by
  have hmn : (AllowedMethod.find_from req.parts.method).isNone = false := by
    cases hF : AllowedMethod.find_from req.parts.method <;> simp [hF] at hm ⊢
  constructor
  · intro hp
    refine ⟨?_, rfl, rfl⟩
    simp [handle_request, hmn, hp]
  · intro hp
    have hne : ("/favicon.ico".data = "/".data) = False := by decide
    simp [handle_request, hmn, hp, hne]

/-- Witness for the amended C5 at a concrete GET to `/`. -/
theorem special_paths_for_allowed_methods_witness :
    handle_request [] [] getSlashRequest = .ok (homepage_response .http11) ∧
    (homepage_response .http11).status = 200 ∧
    (homepage_response .http11).body =
      "A maven repository proxy backed by rust-maven-proxy version " ++
        PROGRAM_VERSION :=
  (special_paths_for_allowed_methods [] [] getSlashRequest (by decide)).1 (by decide)

/-- C6: a request whose method is neither GET nor HEAD is answered 405 before
anything else is looked at, with one `Allow` header entry per allowed method —
exactly GET and HEAD — and the explanatory body text. -/
theorem bad_method_gets_405 (repositories : List Uri)
    (completed : List BackendOutcome) (req : Request)
    (hm : AllowedMethod.find_from req.parts.method = none) :
    handle_request repositories completed req =
      .ok (AllowedMethod.respond_with_405 req.parts.version) ∧
    (AllowedMethod.respond_with_405 req.parts.version).status = 405 ∧
    (AllowedMethod.respond_with_405 req.parts.version).headers =
      [("Allow", "GET"), ("Allow", "HEAD")] ∧
    (AllowedMethod.respond_with_405 req.parts.version).body =
      "Only GET, HEAD requests are allowed to rust-maven-proxy." := by
  refine ⟨?_, rfl, rfl, rfl⟩
  simp [handle_request, hm]

/-- Witness for C6 at a concrete PUT request. -/
theorem bad_method_gets_405_witness :
    handle_request [] [] ⟨⟨.PUT, slashUri, .http2, []⟩, true⟩ =
      .ok (AllowedMethod.respond_with_405 .http2) ∧
    (AllowedMethod.respond_with_405 .http2).status = 405 ∧
    (AllowedMethod.respond_with_405 .http2).headers =
      [("Allow", "GET"), ("Allow", "HEAD")] ∧
    (AllowedMethod.respond_with_405 .http2).body =
      "Only GET, HEAD requests are allowed to rust-maven-proxy." :=
  bad_method_gets_405 [] [] ⟨⟨.PUT, slashUri, .http2, []⟩, true⟩ (by decide)

/-- Inbound parts of a GET artifact request over HTTP/1.0. -/
def parts10 : Parts := ⟨.GET, ⟨none, none, some gavExample⟩, .http10, []⟩

/-- C9 counterexample: the winning backend response is returned as-is, so the
client response carries the backend's HTTP version (here 1.1), not the
inbound request's (here 1.0) — pass-through responses do not carry the
inbound HTTP version. -/
theorem passthrough_keeps_backend_version_cex :
    contact_proxies parts10 gavExample [mavenCentralUri] [acceptedOutcome200] =
      .ok response200 ∧
    response200.version = .http11 ∧
    parts10.version = .http10 ∧
    ¬ response200.version = parts10.version := by
  decide

/-- C9 amended: every response `handle_request` synthesizes itself (homepage,
favicon 404, 400, 405, no-artifact 404) carries the inbound request's HTTP
version; the only other possible response is an accepted backend response
passed through unmodified, which carries whatever version the backend
answered with. -/
theorem response_version_policy (repositories : List Uri)
    (completed : List BackendOutcome) (req : Request) (resp : Response)
    (h : handle_request repositories completed req = .ok resp) :
    resp.version = req.parts.version ∨
      ∃ b ∈ completed, classify b = some resp := by
  unfold handle_request at h
  dsimp only at h
  split at h
  · exact Or.inl (by cases h; rfl)
  · split at h
    · exact Or.inl (by cases h; rfl)
    · split at h
      · exact Or.inl (by cases h; rfl)
      · split at h
        · exact Or.inl (by cases h; rfl)
        · split at h
          · exact Or.inl (by cases h; rfl)
          · unfold contact_proxies at h
            split at h
            · cases h
            · split at h
              · rename_i response hrace
                cases h
                right
                obtain ⟨o, ho, heq⟩ := List.mem_map.mp (race_mem _ _ hrace)
                exact ⟨o, ho, heq⟩
              · exact Or.inl (by cases h; rfl)

/-- Witness for the amended C9 at the concrete homepage request. -/
theorem response_version_policy_witness :
    (homepage_response .http11).version = getSlashRequest.parts.version ∨
      ∃ b ∈ ([] : List BackendOutcome),
        classify b = some (homepage_response .http11) :=
  response_version_policy [] [] getSlashRequest (homepage_response .http11)
    (by decide)

/-- C10: an inbound request with an allowed method whose URI has no
path-and-query at all (authority-form) is answered with the homepage
response, exactly as a request to `/` with the same attributes would be. -/
theorem no_path_serves_homepage (repositories : List Uri)
    (completed : List BackendOutcome) (req : Request)
    (hm : (AllowedMethod.find_from req.parts.method).isSome = true)
    (hp : req.parts.uri.path_and_query = none) :
    handle_request repositories completed req =
      .ok (homepage_response req.parts.version) ∧
    (homepage_response req.parts.version).status = 200 ∧
    handle_request repositories completed
      ⟨⟨req.parts.method,
        ⟨req.parts.uri.scheme, req.parts.uri.authority, some "/".data⟩,
        req.parts.version, req.parts.headers⟩, req.body_is_end_stream⟩ =
      .ok (homepage_response req.parts.version) := by
  have hmn : (AllowedMethod.find_from req.parts.method).isNone = false := by
    cases hF : AllowedMethod.find_from req.parts.method <;> simp [hF] at hm ⊢
  refine ⟨?_, rfl, ?_⟩
  · simp [handle_request, hmn, hp]
  · simp [handle_request, hmn]

/-- Witness for C10 at a concrete GET whose URI is authority-form. -/
theorem no_path_serves_homepage_witness :
    handle_request [] [] ⟨⟨.GET, authorityOnlyUri, .http11, []⟩, true⟩ =
      .ok (homepage_response .http11) ∧
    (homepage_response .http11).status = 200 ∧
    handle_request [] []
      ⟨⟨.GET, ⟨none, some "repo.example.org", some "/".data⟩, .http11, []⟩,
        true⟩ = .ok (homepage_response .http11) :=
  no_path_serves_homepage [] [] ⟨⟨.GET, authorityOnlyUri, .http11, []⟩, true⟩
    (by decide) (by decide)

end MavenProxy
